import Mathlib

/-!
Shallow embedding of the smart product search and recommendation engine of
the Abak_market repository (apps/catalog/search_service.py and
apps/catalog/models.py), with proofs of the specification claims.

Strings are modelled as lists of characters; the database tables as lists
of records; the Django cache and the PopularSearch table as explicit state
threaded through the search function.
-/

namespace AbakMarket

/-- Character strings, modelled as lists of characters. -/
abbrev Str := List Char

/-- Python str.lower; the code relies only on simple case folding. -/
def lcase (s : Str) : Str := s.map Char.toLower

/-- Python str.strip: removes leading and trailing whitespace. -/
def pyStrip (s : Str) : Str :=
  ((s.dropWhile Char.isWhitespace).reverse.dropWhile Char.isWhitespace).reverse

/-- Accumulator-based helper for pyWords. -/
def pyWordsAux : Str → Str → List Str
  | [], acc => if acc = [] then [] else [acc.reverse]
  | c :: t, acc =>
    if c.isWhitespace then
      if acc = [] then pyWordsAux t [] else acc.reverse :: pyWordsAux t []
    else pyWordsAux t (c :: acc)

/-- Python str.split() with no separator: whitespace-separated words,
empty pieces dropped. -/
def pyWords (s : Str) : List Str := pyWordsAux s []

/-- Substring test: containsSeq s pat is true iff pat occurs contiguously
in s (Django icontains, after both sides are lower-cased by the caller). -/
def containsSeq : Str → Str → Bool
  | [], pat => pat.isEmpty
  | c :: t, pat => pat.isPrefixOf (c :: t) || containsSeq t pat

/-- Fuel-based worker for replaceAll; the fuel is always at least the
length of the string, so the fuel-exhausted branch is unreachable. -/
def replaceAllGo (pat rep : Str) : Nat → Str → Str
  | _, [] => if pat.isEmpty then rep else []
  | 0, s => s
  | fuel + 1, c :: s =>
    if pat.isEmpty then rep ++ c :: replaceAllGo pat rep fuel s
    else if pat.isPrefixOf (c :: s) then
      rep ++ replaceAllGo pat rep fuel (List.drop (pat.length - 1) s)
    else c :: replaceAllGo pat rep fuel s

/-- Python str.replace(pat, rep): replaces every non-overlapping occurrence
of pat by rep, scanning left to right. -/
def replaceAll (pat rep s : Str) : Str := replaceAllGo pat rep s.length s

/-! ## Data model (apps/catalog/models.py) -/

/-- Category (models.py): only the fields the search engine reads.
The slug column carries a unique constraint in the schema. -/
structure Category where
  id : Nat
  slug : Str
  is_active : Bool
  order : Nat
  name : Str
deriving Repr, DecidableEq

/-- Product (models.py): the fields read by the search and recommendation
services. The DecimalField price is modelled as a rational; created_at as
an abstract timestamp. -/
structure Product where
  id : Nat
  name : Str
  description : Str
  short_description : Str
  categoryId : Nat
  price : ℚ
  is_available : Bool
  is_featured : Bool
  is_new : Bool
  view_count : Nat
  purchase_count : Nat
  order : Nat
  created_at : Nat
deriving Repr, DecidableEq

/-- SearchSynonym row: word is the canonical spelling, synonym the
alternate spelling that maps to it. -/
structure SynonymRow where
  word : Str
  synonym : Str
deriving Repr, DecidableEq

/-- PopularSearch row (the popular-query log). The last_searched
timestamp is not modelled (no claim mentions it). -/
structure PopularEntry where
  query : Str
  search_count : Nat
  results_count : Nat
deriving Repr, DecidableEq

/-- A "did you mean" suggestion record produced on sparse results. -/
structure Suggestion where
  query : Str
  count : Nat
  similarity : ℚ
deriving Repr, DecidableEq

/-- The dict returned by SmartSearchService.search. -/
structure SearchResult where
  products : List Product
  total : Nat
  query : Str
  category : Option Category
  suggestions : List Suggestion
deriving Repr, DecidableEq

/-- The read-only database tables the search engine consumes. -/
structure DB where
  products : List Product
  categories : List Category
  synonyms : List SynonymRow
deriving Repr

/-- Mutable state threaded through search: the Django result cache
(entries are alive for the whole modelled window, i.e. within the TTL)
and the PopularSearch log table. -/
structure SearchState where
  cache : List (Str × SearchResult)
  log : List PopularEntry
deriving Repr, DecidableEq

/-- The string-similarity ratio of difflib.SequenceMatcher is an external
library function; the model abstracts it as a parameter. -/
structure Env where
  sim : Str → Str → ℚ

/-! ## Search configuration (SEARCH_CONFIG in search_service.py) -/

/-- The WEIGHTS table of SEARCH_CONFIG. -/
structure Weights where
  exact_match : Nat
  starts_with : Nat
  word_match : Nat
  description_match : Nat
  fuzzy_match : Nat
  popular : Nat
  featured : Nat
deriving Repr, DecidableEq

/-- The default weight values of SEARCH_CONFIG. -/
def defaultWeights : Weights := ⟨100, 80, 60, 30, 20, 10, 5⟩

/-- SEARCH_CONFIG FUZZY_THRESHOLD = 0.6. -/
def FUZZY_THRESHOLD : ℚ := 3 / 5

/-! ## Stable insertion sort, modelling the deterministic order_by
clauses of the querysets. -/

/-- Insert an element in front of the first list element it compares
below-or-equal to. -/
def insertLe (le : α → α → Bool) (a : α) : List α → List α
  | [] => [a]
  | b :: t => if le a b then a :: b :: t else b :: insertLe le a t

/-- Stable insertion sort by a boolean comparison. -/
def isort (le : α → α → Bool) : List α → List α
  | [] => []
  | a :: t => insertLe le a (isort le t)

/-! ## SearchSynonym.get_normalized_queries (models.py lines 510-521) -/

/-- One step of the variant-accumulation loop: append the substring
replacement of the row unless it is already present. -/
def addVariant (ql : Str) (acc : List Str) (r : SynonymRow) : List Str :=
  let nq := replaceAll r.synonym r.word ql
  if acc.contains nq then acc else acc ++ [nq]

/-- SearchSynonym.get_normalized_queries: the lower-cased query plus one
variant per synonym row whose alternate spelling equals a whitespace
word of the query; the variant is produced by Python str.replace, i.e.
substring replacement of every occurrence. -/
def get_normalized_queries (syns : List SynonymRow) (query : Str) : List Str :=
  let ql := lcase query
  (syns.filter (fun r => (pyWords ql).contains r.synonym)).foldl (addVariant ql) [ql]

/-! ## PopularSearch.log_search (models.py lines 555-567) -/

/-- The key under which a query is logged: lower-cased, stripped,
truncated to 200 characters. -/
def logKey (query : Str) : Str := (lcase (pyStrip query)).take 200

/-- PopularSearch.log_search: on a query of at least two characters,
create the row with search_count 1 or increment search_count and
overwrite results_count. -/
def log_search (log : List PopularEntry) (query : Str) (results_count : Nat) :
    List PopularEntry :=
  let qc := logKey query
  if 2 ≤ qc.length then
    match log.find? (fun e => decide (e.query = qc)) with
    | some _ =>
        log.map (fun e =>
          if e.query = qc then ⟨e.query, e.search_count + 1, results_count⟩ else e)
    | none => log ++ [⟨qc, 1, results_count⟩]
  else log

/-! ## Scoring (SmartSearchService._add_ranking, lines 169-200) -/

/-- The name-match tier of the search score: the first satisfied Case
branch wins (iexact, istartswith, icontains on the name, icontains on
the description, default fuzzy floor). -/
def nameTier (w : Weights) (q : Str) (p : Product) : Nat :=
  if lcase p.name = lcase q then w.exact_match
  else if (lcase q).isPrefixOf (lcase p.name) then w.starts_with
  else if containsSeq (lcase p.name) (lcase q) then w.word_match
  else if containsSeq (lcase p.description) (lcase q) then w.description_match
  else w.fuzzy_match

/-- Popularity bonus: full at view_count at least 100, half at 50. -/
def popBonus (w : Weights) (p : Product) : Nat :=
  if 100 ≤ p.view_count then w.popular
  else if 50 ≤ p.view_count then w.popular / 2
  else 0

/-- Featured bonus: flat constant for featured products. -/
def featBonus (w : Weights) (p : Product) : Nat :=
  if p.is_featured then w.featured else 0

/-- The annotated search_score: sum of the three Case expressions. -/
def searchScore (w : Weights) (q : Str) (p : Product) : Nat :=
  nameTier w q p + popBonus w p + featBonus w p

/-- order_by('-search_score', '-view_count', 'order'). -/
def searchLe (w : Weights) (q : Str) (a b : Product) : Bool :=
  if searchScore w q a = searchScore w q b then
    if a.view_count = b.view_count then decide (a.order ≤ b.order)
    else decide (b.view_count < a.view_count)
  else decide (searchScore w q b < searchScore w q a)

/-! ## Matching (SmartSearchService._build_search_query, lines 148-167) -/

/-- One variant of the disjunctive match predicate: name, description or
short_description contains the variant, or the name contains one of its
whitespace words of length at least 2. -/
def variantMatches (p : Product) (v : Str) : Bool :=
  containsSeq (lcase p.name) (lcase v) ||
  containsSeq (lcase p.description) (lcase v) ||
  containsSeq (lcase p.short_description) (lcase v) ||
  (pyWords v).any (fun word =>
    decide (2 ≤ word.length) && containsSeq (lcase p.name) (lcase word))

/-- The full Q object: the disjunction over all query variants. -/
def matchesQuery (variants : List Str) (p : Product) : Bool :=
  variants.any (variantMatches p)

/-! ## SmartSearchService.search (lines 70-146) and its helpers -/

/-- Category.objects.filter(slug, is_active=True).first(): the slug
column is unique, so the first match in table order is the unique
active category with that slug when one exists. -/
def resolveCategory (db : DB) (slug : Str) : Option Category :=
  db.categories.find? (fun c => decide (c.slug = slug) && c.is_active)

/-- The candidate set of a search: available products, restricted to the
resolved category when the supplied slug resolves, then filtered by the
disjunctive match predicate. -/
def searchCandidates (db : DB) (q : Str) (cslug : Option Str) : List Product :=
  let base := db.products.filter (fun p => p.is_available)
  let base2 : List Product :=
    match cslug.bind (resolveCategory db) with
    | some c => base.filter (fun p => decide (p.categoryId = c.id))
    | none => base
  base2.filter (matchesQuery (get_normalized_queries db.synonyms q))

/-- PopularSearch Meta ordering ['-search_count']. -/
def psLe (a b : PopularEntry) : Bool := decide (b.search_count ≤ a.search_count)

/-- Python list.sort(key=similarity, reverse=True). -/
def sugLe (a b : Suggestion) : Bool := decide (b.similarity ≤ a.similarity)

/-- SmartSearchService._get_alternative_suggestions (lines 202-225):
up to 20 logged queries with nonzero results, other than the current
query; keep those whose similarity exceeds the threshold; sort by
similarity descending; return the top 5. -/
def getAlternativeSuggestions (sim : Str → Str → ℚ) (log : List PopularEntry)
    (query : Str) : List Suggestion :=
  let candidates :=
    (isort psLe (log.filter (fun e =>
      decide (0 < e.results_count) && decide (e.query ≠ query)))).take 20
  let sugg := candidates.foldl (fun acc pq =>
    let s := sim (lcase query) (lcase pq.query)
    if FUZZY_THRESHOLD < s then acc ++ [⟨pq.query, pq.results_count, s⟩] else acc) []
  (isort sugLe sugg).take 5

/-- SmartSearchService._empty_result (lines 233-241). -/
def emptyResult : SearchResult := ⟨[], 0, [], none, []⟩

/-- The cache key of a search (line 93):
"search:" + query + ":" + (category_slug or "all"). -/
def cacheKey (q : Str) (cslug : Option Str) : Str :=
  "search:".data ++ q ++ ":".data ++ cslug.getD "all".data

/-- The non-cached part of SmartSearchService.search: candidate
filtering, ranking, truncation, query logging and sparse-result
suggestions. Returns the result together with the updated log. -/
def searchCompute (env : Env) (db : DB) (log : List PopularEntry) (q : Str)
    (cslug : Option Str) (limit : Nat) : SearchResult × List PopularEntry :=
  let matched := searchCandidates db q cslug
  let products := (isort (searchLe defaultWeights q) matched).take limit
  let total := matched.length
  let log2 := log_search log q total
  let suggestions :=
    if total < 3 then getAlternativeSuggestions env.sim log2 q else []
  (⟨products, total, q, cslug.bind (resolveCategory db), suggestions⟩, log2)

/-- SmartSearchService.search (lines 70-146): normalize the query, return
the empty result on an empty query, serve a cache hit unmodified, and
otherwise compute, log and cache the result. -/
def search (env : Env) (db : DB) (st : SearchState) (query : Str)
    (cslug : Option Str) (limit : Nat) : SearchResult × SearchState :=
  let q := lcase (pyStrip query)
  if q = [] then (emptyResult, st)
  else
    let key := cacheKey q cslug
    match st.cache.find? (fun e => decide (e.1 = key)) with
    | some e => (e.2, st)
    | none =>
      let res := searchCompute env db st.log q cslug limit
      (res.1, ⟨(key, res.1) :: st.cache, res.2⟩)

/-- The search_count recorded for a query, zero when no row exists. -/
def searchCountOf (log : List PopularEntry) (q : Str) : Nat :=
  match log.find? (fun e => decide (e.query = q)) with
  | some e => e.search_count
  | none => 0

/-! ## RecommendationService (lines 351-483) -/

/-- popularity_score = purchase_count * 3 + view_count + 100 if featured. -/
def popScore (p : Product) : Nat :=
  p.purchase_count * 3 + p.view_count + (if p.is_featured then 100 else 0)

/-- order_by('-popularity_score', '-created_at'). -/
def popLe (a b : Product) : Bool :=
  if popScore a = popScore b then decide (b.created_at ≤ a.created_at)
  else decide (popScore b < popScore a)

/-- RecommendationService.get_popular_products (lines 366-395). -/
def get_popular_products (db : DB) (limit : Nat) (exclude_ids : List Nat) :
    List Product :=
  let qs := db.products.filter (fun p =>
    p.is_available && !(exclude_ids.contains p.id))
  (isort popLe qs).take limit

/-- order_by('-view_count', '-is_featured', 'order') for tier 1 of
similar products. -/
def simLe1 (a b : Product) : Bool :=
  if a.view_count = b.view_count then
    if a.is_featured = b.is_featured then decide (a.order ≤ b.order)
    else a.is_featured
  else decide (b.view_count < a.view_count)

/-- order_by('-view_count', 'order') for tier 2. -/
def simLe2 (a b : Product) : Bool :=
  if a.view_count = b.view_count then decide (a.order ≤ b.order)
  else decide (b.view_count < a.view_count)

/-- order_by('-view_count') for tier 3. -/
def simLe3 (a b : Product) : Bool := decide (b.view_count ≤ a.view_count)

/-- The price band of similar products: within plus or minus thirty
percent of the reference price (the code computes the bounds as
float(price) * 0.7 and * 1.3; the model uses the exact rationals). -/
def priceBand (refp p : Product) : Bool :=
  decide ((7 : ℚ) / 10 * refp.price ≤ p.price) &&
  decide (p.price ≤ (13 : ℚ) / 10 * refp.price)

/-- Tier 1 of get_similar_products (lines 414-426): available products of
the same category within the price band, the reference excluded, sorted
and truncated to limit. -/
def simTier1 (db : DB) (product : Product) (limit : Nat) : List Product :=
  (isort simLe1 (db.products.filter (fun p =>
    p.is_available && decide (p.categoryId = product.categoryId) &&
    priceBand product p && decide (¬p.id = product.id)))).take limit

/-- Tier 2 of get_similar_products (lines 429-441): run only when the
list is underfilled; same category regardless of price, excluding the
reference and the already selected items. -/
def simTier2 (db : DB) (product : Product) (limit : Nat) (sel1 : List Product) :
    List Product :=
  if sel1.length < limit then
    (isort simLe2 (db.products.filter (fun p =>
      p.is_available && decide (p.categoryId = product.categoryId) &&
      !(decide (p.id = product.id) ||
        sel1.any (fun s => decide (s.id = p.id)))))).take (limit - sel1.length)
  else []

/-- Tier 3 of get_similar_products (lines 443-454): run only when still
underfilled; featured products of any category, excluding the reference
and the already selected items. -/
def simTier3 (db : DB) (product : Product) (limit : Nat) (sel2 : List Product) :
    List Product :=
  if sel2.length < limit then
    (isort simLe3 (db.products.filter (fun p =>
      p.is_available && p.is_featured &&
      !(decide (p.id = product.id) ||
        sel2.any (fun s => decide (s.id = p.id)))))).take (limit - sel2.length)
  else []

/-- RecommendationService.get_similar_products (lines 397-456): three
tiers, each appending distinct items while the list is underfilled. -/
def get_similar_products (db : DB) (product : Product) (limit : Nat) :
    List Product :=
  let sel1 := simTier1 db product limit
  let sel2 := sel1 ++ simTier2 db product limit sel1
  sel2 ++ simTier3 db product limit sel2

/-! ## Concrete fixtures used by witnesses and counterexamples -/

/-- An environment with a trivial similarity function. -/
def env0 : Env := ⟨fun _ _ => 0⟩

/-- A single active category. -/
def cat1 : Category := ⟨1, "food".data, true, 0, "Food".data⟩

/-- One available product in category 1. -/
def prod1 : Product := ⟨1, "milk".data, [], [], 1, 10, true, false, false, 0, 0, 0, 0⟩

/-- A catalog with one product, one category, no synonyms. -/
def db1 : DB := ⟨[prod1], [cat1], []⟩

/-- The initial state: empty cache, empty log. -/
def st0 : SearchState := ⟨[], []⟩

/-- A product whose short description, but neither name nor description,
contains the query "milk". -/
def prodShortDesc : Product :=
  ⟨2, "apple".data, "fruit".data, "with milk".data, 1, 5, true, false, false, 0, 0, 0, 0⟩

/-- A product matching "milk" only through its description, with no
popularity or featured bonus. -/
def prodDescOnly : Product :=
  ⟨3, "apple".data, "made with milk".data, [], 1, 5, true, false, false, 0, 0, 0, 0⟩

/-- A fuzzy-floor product for the query "milk", with full popularity and
featured bonuses. -/
def prodFuzzy : Product :=
  ⟨4, "banana".data, "yellow".data, [], 1, 5, true, true, false, 100, 0, 0, 0⟩

/-- First of two identical searches for the one-character query "a". -/
def c5FirstCall : SearchResult × SearchState := search env0 db1 st0 "a".data none 50

/-- Second of two identical searches for the one-character query "a". -/
def c5SecondCall : SearchResult × SearchState :=
  search env0 db1 c5FirstCall.2 "a".data none 50

/-- Whether a product satisfies the category restriction that search
actually applies: the restriction binds only when the supplied slug
resolves to an active category. -/
def categoryFilterOk (db : DB) (cslug : Option Str) (p : Product) : Bool :=
  match cslug.bind (resolveCategory db) with
  | some c => decide (p.categoryId = c.id)
  | none => true

/-! ## Sanity checks of the embedding on concrete inputs -/

example : lcase "MiLk".data = "milk".data := by decide
example : pyStrip "  milk  ".data = "milk".data := by decide
example : pyWords " a bc  d ".data = ["a".data, "bc".data, "d".data] := by decide
example : containsSeq "hello".data "ell".data = true := by decide
example : containsSeq "hello".data "elo".data = false := by decide
example : containsSeq "hello".data "".data = true := by decide
example : replaceAll "aa".data "b".data "aaa".data = "ba".data := by decide
example : replaceAll "cola".data "coke".data "cola colada".data = "coke cokeda".data := by decide
example : (search env0 db1 st0 "milk".data none 50).1.products = [prod1] := by decide
example : (search env0 db1 st0 "milk".data none 50).1.total = 1 := by decide
example : (search env0 db1 st0 "milk".data none 50).2.log = [⟨"milk".data, 1, 1⟩] := by decide
example : (search env0 db1 st0 "milk".data (some "food".data) 50).1.products = [prod1] := by
  decide
example : (search env0 db1 st0 "absent".data none 50).1.products = [] := by decide

/-! ## Generic lemmas about the stable insertion sort -/

theorem insertLe_perm (le : α → α → Bool) (a : α) (l : List α) :
    (insertLe le a l).Perm (a :: l) := by
  induction l with
  | nil => exact List.Perm.refl _
  | cons b t ih =>
    cases hab : le a b with
    | true => simp [insertLe, hab]
    | false =>
      simp only [insertLe, hab, Bool.false_eq_true, if_false]
      exact (ih.cons b).trans (List.Perm.swap a b t)

theorem isort_perm (le : α → α → Bool) (l : List α) : (isort le l).Perm l := by
  induction l with
  | nil => exact List.Perm.refl _
  | cons a t ih => exact (insertLe_perm le a (isort le t)).trans (ih.cons a)

theorem mem_isort (le : α → α → Bool) {a : α} {l : List α} :
    a ∈ isort le l ↔ a ∈ l :=
  (isort_perm le l).mem_iff

theorem insertLe_sorted (le : α → α → Bool)
    (hto : ∀ a b, le a b = true ∨ le b a = true)
    (htr : ∀ a b c, le a b = true → le b c = true → le a c = true)
    (a : α) (l : List α) (hl : l.Pairwise (fun x y => le x y = true)) :
    (insertLe le a l).Pairwise (fun x y => le x y = true) := by
  induction l with
  | nil => simp [insertLe]
  | cons b t ih =>
    rcases List.pairwise_cons.mp hl with ⟨hb, ht⟩
    cases hab : le a b with
    | true =>
      simp only [insertLe, hab, if_true]
      refine List.pairwise_cons.mpr ⟨?_, hl⟩
      intro y hy
      rcases List.mem_cons.mp hy with rfl | hy2
      · exact hab
      · exact htr a b y hab (hb y hy2)
    | false =>
      simp only [insertLe, hab, Bool.false_eq_true, if_false]
      refine List.pairwise_cons.mpr ⟨?_, ih ht⟩
      intro y hy
      have hy2 : y ∈ a :: t := (insertLe_perm le a t).mem_iff.mp hy
      rcases List.mem_cons.mp hy2 with rfl | hy3
      · rcases hto b y with h1 | h2
        · exact h1
        · rw [h2] at hab
          exact absurd hab (by simp)
      · exact hb y hy3

theorem isort_sorted (le : α → α → Bool)
    (hto : ∀ a b, le a b = true ∨ le b a = true)
    (htr : ∀ a b c, le a b = true → le b c = true → le a c = true)
    (l : List α) : (isort le l).Pairwise (fun x y => le x y = true) := by
  induction l with
  | nil => simp [isort]
  | cons a t ih => exact insertLe_sorted le hto htr a _ ih

/-! ## Lemmas about the popular-query log -/

theorem find?_map_update (log : List PopularEntry) (qc : Str) (rc : Nat) :
    (log.map (fun e =>
        if e.query = qc then (⟨e.query, e.search_count + 1, rc⟩ : PopularEntry)
        else e)).find? (fun e => decide (e.query = qc)) =
      (log.find? (fun e => decide (e.query = qc))).map
        (fun e => (⟨qc, e.search_count + 1, rc⟩ : PopularEntry)) := by
  induction log with
  | nil => rfl
  | cons a t ih =>
    by_cases ha : a.query = qc
    · rw [List.map_cons, if_pos ha,
        List.find?_cons_of_pos _ (by simp [ha]),
        List.find?_cons_of_pos _ (by simp [ha])]
      simp [ha]
    · rw [List.map_cons, if_neg ha,
        List.find?_cons_of_neg _ (by simp [ha]),
        List.find?_cons_of_neg _ (by simp [ha])]
      exact ih

theorem find?_map_update_other (log : List PopularEntry) (qc k : Str) (rc : Nat)
    (hk : k ≠ qc) :
    (log.map (fun e =>
        if e.query = qc then (⟨e.query, e.search_count + 1, rc⟩ : PopularEntry)
        else e)).find? (fun e => decide (e.query = k)) =
      log.find? (fun e => decide (e.query = k)) := by
  induction log with
  | nil => rfl
  | cons a t ih =>
    by_cases ha : a.query = qc
    · have hak : ¬a.query = k := fun h => hk (by rw [← h, ha])
      rw [List.map_cons, if_pos ha,
        List.find?_cons_of_neg _ (by simp [ha]; exact Ne.symm hk),
        List.find?_cons_of_neg _ (by simp [hak])]
      exact ih
    · by_cases hk2 : a.query = k
      · rw [List.map_cons, if_neg ha,
          List.find?_cons_of_pos _ (by simp [hk2]),
          List.find?_cons_of_pos _ (by simp [hk2])]
      · rw [List.map_cons, if_neg ha,
          List.find?_cons_of_neg _ (by simp [hk2]),
          List.find?_cons_of_neg _ (by simp [hk2])]
        exact ih

theorem log_search_self (log : List PopularEntry) (q : Str) (rc : Nat)
    (h : 2 ≤ (logKey q).length) :
    (log_search log q rc).find? (fun e => decide (e.query = logKey q)) =
      some ⟨logKey q, searchCountOf log (logKey q) + 1, rc⟩ := by
  unfold log_search
  rw [if_pos h]
  cases hf : log.find? (fun e => decide (e.query = logKey q)) with
  | none =>
    simp only [List.find?_append, hf, Option.none_or]
    rw [List.find?_cons_of_pos _ (by simp)]
    unfold searchCountOf
    rw [hf]
  | some e =>
    simp only
    rw [find?_map_update, hf]
    unfold searchCountOf
    rw [hf]
    have he : e.query = logKey q := by
      have := List.find?_some hf
      simpa using this
    rfl

theorem log_search_other (log : List PopularEntry) (q : Str) (rc : Nat) (k : Str)
    (hk : k ≠ logKey q) :
    (log_search log q rc).find? (fun e => decide (e.query = k)) =
      log.find? (fun e => decide (e.query = k)) := by
  unfold log_search
  by_cases hlen : 2 ≤ (logKey q).length
  · rw [if_pos hlen]
    cases hf : log.find? (fun e => decide (e.query = logKey q)) with
    | none =>
      simp only [List.find?_append]
      rw [List.find?_cons_of_neg _ (by simp [Ne.symm hk])]
      simp
    | some e =>
      simp only
      exact find?_map_update_other log (logKey q) k rc hk
  · rw [if_neg hlen]

/-! ## Lemmas about the synonym-variant accumulation -/

theorem addVariant_of_mem (ql : Str) (acc : List Str) (r : SynonymRow)
    (hm : replaceAll r.synonym r.word ql ∈ acc) : addVariant ql acc r = acc := by
  simp [addVariant, hm]

theorem addVariant_of_not_mem (ql : Str) (acc : List Str) (r : SynonymRow)
    (hm : ¬replaceAll r.synonym r.word ql ∈ acc) :
    addVariant ql acc r = acc ++ [replaceAll r.synonym r.word ql] := by
  simp [addVariant, hm]

theorem addVariant_foldl_starts (ql : Str) (rs : List SynonymRow) (acc : List Str) :
    acc <+: rs.foldl (addVariant ql) acc := by
  induction rs generalizing acc with
  | nil => exact List.prefix_refl acc
  | cons r t ih =>
    refine List.IsPrefix.trans ?_ (ih (addVariant ql acc r))
    by_cases hm : replaceAll r.synonym r.word ql ∈ acc
    · rw [addVariant_of_mem ql acc r hm]
    · rw [addVariant_of_not_mem ql acc r hm]
      exact List.prefix_append acc _

theorem addVariant_foldl_nodup (ql : Str) (rs : List SynonymRow) (acc : List Str)
    (h : acc.Nodup) : (rs.foldl (addVariant ql) acc).Nodup := by
  induction rs generalizing acc with
  | nil => exact h
  | cons r t ih =>
    refine ih (addVariant ql acc r) ?_
    by_cases hm : replaceAll r.synonym r.word ql ∈ acc
    · rw [addVariant_of_mem ql acc r hm]
      exact h
    · rw [addVariant_of_not_mem ql acc r hm]
      refine List.Nodup.append h (List.nodup_singleton _) ?_
      intro x hx hx2
      rcases List.mem_singleton.mp hx2 with rfl
      exact hm hx

theorem addVariant_foldl_mem (ql : Str) (rs : List SynonymRow) (acc : List Str)
    (v : Str) (hv : v ∈ rs.foldl (addVariant ql) acc) :
    v ∈ acc ∨ ∃ r ∈ rs, v = replaceAll r.synonym r.word ql := by
  induction rs generalizing acc with
  | nil => exact Or.inl hv
  | cons r t ih =>
    rcases ih (addVariant ql acc r) hv with h1 | ⟨r2, hr2, hv2⟩
    · by_cases hm : replaceAll r.synonym r.word ql ∈ acc
      · rw [addVariant_of_mem ql acc r hm] at h1
        exact Or.inl h1
      · rw [addVariant_of_not_mem ql acc r hm] at h1
        rcases List.mem_append.mp h1 with h2 | h2
        · exact Or.inl h2
        · exact Or.inr ⟨r, List.mem_cons_self r t, List.mem_singleton.mp h2⟩
    · exact Or.inr ⟨r2, List.mem_cons_of_mem r hr2, hv2⟩

theorem addVariant_foldl_complete (ql : Str) (rs : List SynonymRow) (acc : List Str)
    (r : SynonymRow) (hr : r ∈ rs) :
    replaceAll r.synonym r.word ql ∈ rs.foldl (addVariant ql) acc := by
  induction rs generalizing acc with
  | nil => exact absurd hr (List.not_mem_nil r)
  | cons r0 t ih =>
    rcases List.mem_cons.mp hr with rfl | hr2
    · have hmem : replaceAll r.synonym r.word ql ∈ addVariant ql acc r := by
        by_cases hm : replaceAll r.synonym r.word ql ∈ acc
        · rw [addVariant_of_mem ql acc r hm]
          exact hm
        · rw [addVariant_of_not_mem ql acc r hm]
          exact List.mem_append.mpr (Or.inr (List.mem_singleton.mpr rfl))
      exact (addVariant_foldl_starts ql t (addVariant ql acc r)).subset hmem
    · exact ih (addVariant ql acc r0) hr2

/-! ## Claim C2 -/

/-- Claim C2 counterexample: for an item whose short description contains
the query while name and description do not, the claim assigns the
description weight, but the ranking annotation checks only the
description field and assigns the fuzzy floor weight. -/
theorem C2_counterexample :
    containsSeq (lcase prodShortDesc.short_description) (lcase "milk".data) = true ∧
    containsSeq (lcase prodShortDesc.name) (lcase "milk".data) = false ∧
    containsSeq (lcase prodShortDesc.description) (lcase "milk".data) = false ∧
    nameTier defaultWeights "milk".data prodShortDesc = defaultWeights.fuzzy_match ∧
    ¬nameTier defaultWeights "milk".data prodShortDesc =
      defaultWeights.description_match := by
  decide

/-- Claim C2 (amended): the name-match component of the score is exactly
one tier, chosen by first-satisfied priority: exact case-insensitive
equality of the name with the query, else name starts with the query,
else name contains the query, else the description (and only the
description: the short description is not consulted) contains the query,
else the fuzzy floor weight. -/
theorem C2_name_tier (w : Weights) (q : Str) (p : Product) :
    (lcase p.name = lcase q → nameTier w q p = w.exact_match) ∧
    (¬lcase p.name = lcase q → (lcase q).isPrefixOf (lcase p.name) = true →
      nameTier w q p = w.starts_with) ∧
    (¬lcase p.name = lcase q → (lcase q).isPrefixOf (lcase p.name) = false →
      containsSeq (lcase p.name) (lcase q) = true → nameTier w q p = w.word_match) ∧
    (¬lcase p.name = lcase q → (lcase q).isPrefixOf (lcase p.name) = false →
      containsSeq (lcase p.name) (lcase q) = false →
      containsSeq (lcase p.description) (lcase q) = true →
      nameTier w q p = w.description_match) ∧
    (¬lcase p.name = lcase q → (lcase q).isPrefixOf (lcase p.name) = false →
      containsSeq (lcase p.name) (lcase q) = false →
      containsSeq (lcase p.description) (lcase q) = false →
      nameTier w q p = w.fuzzy_match) := by
  refine ⟨?_, ?_, ?_, ?_, ?_⟩
  · intro h1
    simp [nameTier, h1]
  · intro h1 h2
    simp [nameTier, h1, h2]
  · intro h1 h2 h3
    simp [nameTier, h1, h2, h3]
  · intro h1 h2 h3 h4
    simp [nameTier, h1, h2, h3, h4]
  · intro h1 h2 h3 h4
    simp [nameTier, h1, h2, h3, h4]

/-- Claim C2 witness: the exact tier at a concrete product and query. -/
theorem C2_name_tier_witness :
    nameTier defaultWeights "milk".data prod1 = defaultWeights.exact_match :=
  (C2_name_tier defaultWeights "milk".data prod1).1 (by decide)

/-! ## Claim C3 -/

/-- Claim C3 counterexample: with the synonym row (word "coke", alternate
"cola") and the query "cola colada", the alternate matches the first
word, but Python str.replace substitutes every substring occurrence, so
the produced variant is "coke cokeda" and not the whole-word replacement
"coke colada" the claim describes. -/
theorem C3_counterexample :
    get_normalized_queries [⟨"coke".data, "cola".data⟩] "cola colada".data =
      ["cola colada".data, "coke cokeda".data] ∧
    ¬"coke colada".data ∈
      get_normalized_queries [⟨"coke".data, "cola".data⟩] "cola colada".data := by
  decide

/-- Claim C3 (amended): get_normalized_queries returns the lower-cased
query first, deduplicated, a singleton when no synonym row's alternate
term equals a whitespace word of the query; every other element is the
Python substring replacement (all occurrences, not word-boundary) of a
matching row's alternate term by its canonical term, and every matching
row contributes its replacement. -/
theorem C3_synonym_expansion (syns : List SynonymRow) (query : Str) :
    (get_normalized_queries syns query).head? = some (lcase query) ∧
    (get_normalized_queries syns query).Nodup ∧
    (syns.filter (fun r => (pyWords (lcase query)).contains r.synonym) = [] →
      get_normalized_queries syns query = [lcase query]) ∧
    (∀ v ∈ get_normalized_queries syns query, v = lcase query ∨
      ∃ r ∈ syns, (pyWords (lcase query)).contains r.synonym = true ∧
        v = replaceAll r.synonym r.word (lcase query)) ∧
    (∀ r ∈ syns, (pyWords (lcase query)).contains r.synonym = true →
      replaceAll r.synonym r.word (lcase query) ∈
        get_normalized_queries syns query) := by
  refine ⟨?_, ?_, ?_, ?_, ?_⟩
  · rcases addVariant_foldl_starts (lcase query)
      (syns.filter (fun r => (pyWords (lcase query)).contains r.synonym))
      [lcase query] with ⟨t, ht⟩
    simp only [get_normalized_queries]
    rw [← ht]
    rfl
  · exact addVariant_foldl_nodup (lcase query) _ _ (List.nodup_singleton _)
  · intro h
    simp only [get_normalized_queries, h]
    rfl
  · intro v hv
    rcases addVariant_foldl_mem (lcase query) _ _ v hv with h1 | ⟨r, hr, hv2⟩
    · exact Or.inl (List.mem_singleton.mp h1)
    · rcases List.mem_filter.mp hr with ⟨hr2, hr3⟩
      exact Or.inr ⟨r, hr2, hr3, hv2⟩
  · intro r hr hw
    exact addVariant_foldl_complete (lcase query) _ _ r
      (List.mem_filter.mpr ⟨hr, hw⟩)

/-- Claim C3 witness: with no synonym rows the expansion of a concrete
query is the singleton of its lower-cased form. -/
theorem C3_synonym_expansion_witness :
    get_normalized_queries [] "Milk Shake".data = ["milk shake".data] :=
  (C3_synonym_expansion [] "Milk Shake".data).2.2.1 rfl

/-! ## Claim C4 -/

/-- Under the default weights the name tier is one of the five weight
values. -/
theorem nameTier_cases (q : Str) (p : Product) :
    nameTier defaultWeights q p = 100 ∨ nameTier defaultWeights q p = 80 ∨
    nameTier defaultWeights q p = 60 ∨ nameTier defaultWeights q p = 30 ∨
    nameTier defaultWeights q p = 20 := by
  unfold nameTier
  split_ifs <;> simp [defaultWeights]

/-- The name tier of a non-exact match is at most the starts-with
weight. -/
theorem nameTier_of_not_exact (q : Str) (p : Product)
    (h : ¬lcase p.name = lcase q) : nameTier defaultWeights q p ≤ 80 := by
  unfold nameTier
  rw [if_neg h]
  split_ifs <;> simp [defaultWeights]

/-- The popularity bonus is at most the full popular weight. -/
theorem popBonus_le (p : Product) : popBonus defaultWeights p ≤ 10 := by
  unfold popBonus
  split_ifs <;> simp [defaultWeights]

/-- The featured bonus is at most the featured weight. -/
theorem featBonus_le (p : Product) : featBonus defaultWeights p ≤ 5 := by
  unfold featBonus
  split_ifs <;> simp [defaultWeights]

/-- Claim C4 counterexample: a fuzzy-floor item with full popularity and
featured bonuses scores 35 and outranks a description-tier item without
bonuses, which scores 30, so the bonuses can lift the fuzzy tier above
the description tier. -/
theorem C4_counterexample :
    nameTier defaultWeights "milk".data prodDescOnly =
      defaultWeights.description_match ∧
    nameTier defaultWeights "milk".data prodFuzzy = defaultWeights.fuzzy_match ∧
    searchScore defaultWeights "milk".data prodDescOnly <
      searchScore defaultWeights "milk".data prodFuzzy := by
  decide

/-- Claim C4 (amended): under the default weights an exact name match
always scores at least as much as any non-exact match, and the
popularity and featured bonuses can never lift a lower name tier above a
strictly higher one as long as the lower tier is above the fuzzy floor;
the single exception, forced by the counterexample, is that the fuzzy
floor plus full bonuses (35) can exceed a bare description match (30). -/
theorem C4_score_monotonicity (q : Str) (a b : Product) :
    (lcase a.name = lcase q → ¬lcase b.name = lcase q →
      searchScore defaultWeights q b ≤ searchScore defaultWeights q a) ∧
    (defaultWeights.fuzzy_match < nameTier defaultWeights q b →
      nameTier defaultWeights q b < nameTier defaultWeights q a →
      searchScore defaultWeights q b < searchScore defaultWeights q a) := by
  constructor
  · intro ha hb
    have h1 : nameTier defaultWeights q a = 100 := by
      unfold nameTier
      rw [if_pos ha]
      rfl
    have h2 := nameTier_of_not_exact q b hb
    have h3 := popBonus_le b
    have h4 := featBonus_le b
    unfold searchScore
    omega
  · intro h1 h2
    have hf : defaultWeights.fuzzy_match = 20 := rfl
    rw [hf] at h1
    have h3 := popBonus_le a
    have h4 := featBonus_le a
    have h5 := popBonus_le b
    have h6 := featBonus_le b
    unfold searchScore
    rcases nameTier_cases q a with ha | ha | ha | ha | ha <;>
      rcases nameTier_cases q b with hb | hb | hb | hb | hb <;> omega

/-- Claim C4 witness: a concrete exact match outscoring a concrete
non-exact match. -/
theorem C4_score_monotonicity_witness :
    searchScore defaultWeights "milk".data prodShortDesc ≤
      searchScore defaultWeights "milk".data prod1 :=
  (C4_score_monotonicity "milk".data prod1 prodShortDesc).1 (by decide) (by decide)

/-! ## Claim C6 -/

/-- Claim C6: a query that is empty after stripping returns the empty
result (no products, total 0, no suggestions) and leaves the whole state
(cache and log) untouched, for every starting state. -/
theorem C6_empty_query (env : Env) (db : DB) (st : SearchState) (query : Str)
    (cslug : Option Str) (limit : Nat) (h : pyStrip query = []) :
    search env db st query cslug limit = (emptyResult, st) ∧
    emptyResult.products = [] ∧ emptyResult.total = 0 ∧
    emptyResult.suggestions = [] := by
  refine ⟨?_, rfl, rfl, rfl⟩
  have hq : lcase (pyStrip query) = [] := by
    rw [h]
    rfl
  simp [search, hq]

/-- Claim C6 witness: a whitespace-only query on a concrete state. -/
theorem C6_empty_query_witness :
    search env0 db1 st0 "   ".data none 50 = (emptyResult, st0) :=
  (C6_empty_query env0 db1 st0 "   ".data none 50 (by decide)).1

/-! ## Claim C10 -/

/-- Claim C10: the cache key is the plain concatenation
"search:" + query + ":" + (category_slug or "all"); it is not injective:
the distinct inputs (query "x:y", no category) and (query "x", category
"y:all") share a key, and within the TTL the result cached for the first
input is returned verbatim for the second, as its query field shows. -/
theorem C10_cache_key_collision :
    cacheKey "x:y".data none = cacheKey "x".data (some "y:all".data) ∧
    ¬("x:y".data, (none : Option Str)) = ("x".data, some "y:all".data) ∧
    (search env0 db1 ((search env0 db1 st0 "x:y".data none 50).2) "x".data
        (some "y:all".data) 50).1 = (search env0 db1 st0 "x:y".data none 50).1 ∧
    (search env0 db1 ((search env0 db1 st0 "x:y".data none 50).2) "x".data
        (some "y:all".data) 50).1.query = "x:y".data := by
  decide

/-! ## Claim C9 -/

/-- The popularity comparison is total. -/
theorem popLe_total (a b : Product) : popLe a b = true ∨ popLe b a = true := by
  unfold popLe
  by_cases h : popScore a = popScore b
  · rw [if_pos h, if_pos h.symm]
    rcases Nat.le_total b.created_at a.created_at with h2 | h2
    · exact Or.inl (decide_eq_true h2)
    · exact Or.inr (decide_eq_true h2)
  · rw [if_neg h, if_neg (fun hh => h hh.symm)]
    rcases Nat.lt_or_ge (popScore b) (popScore a) with h2 | h2
    · exact Or.inl (decide_eq_true h2)
    · exact Or.inr (decide_eq_true (by omega))

/-- The boolean popularity comparison read as a proposition: strictly
greater score, or equal score and no later creation time. -/
theorem popLe_iff (a b : Product) : popLe a b = true ↔
    (popScore b < popScore a ∨
      (popScore a = popScore b ∧ b.created_at ≤ a.created_at)) := by
  unfold popLe
  by_cases h : popScore a = popScore b
  · rw [if_pos h]
    simp only [decide_eq_true_eq]
    omega
  · rw [if_neg h]
    simp only [decide_eq_true_eq]
    omega

/-- The popularity comparison is transitive. -/
theorem popLe_trans (a b c : Product) (h1 : popLe a b = true)
    (h2 : popLe b c = true) : popLe a c = true := by
  rw [popLe_iff] at h1 h2 ⊢
  omega

/-- Claim C9: get_popular_products removes excluded ids, keeps only
available items, scores each as purchase_count * 3 + view_count + 100
for featured items, and returns at most limit items sorted by descending
score with ties broken by descending creation time; the returned list is
the limit-prefix of a sorted permutation of the whole filtered,
scored catalog. -/
theorem C9_popular_products (db : DB) (limit : Nat) (exclude_ids : List Nat) :
    (∀ x ∈ get_popular_products db limit exclude_ids,
        x.is_available = true ∧ exclude_ids.contains x.id = false) ∧
    (get_popular_products db limit exclude_ids).length ≤ limit ∧
    (get_popular_products db limit exclude_ids).Pairwise (fun a b =>
        popScore b < popScore a ∨
        (popScore a = popScore b ∧ b.created_at ≤ a.created_at)) ∧
    ∃ full : List Product,
      full.Perm (db.products.filter (fun p =>
        p.is_available && !(exclude_ids.contains p.id))) ∧
      full.Pairwise (fun a b =>
        popScore b < popScore a ∨
        (popScore a = popScore b ∧ b.created_at ≤ a.created_at)) ∧
      get_popular_products db limit exclude_ids = full.take limit := by
  have hsorted := isort_sorted popLe popLe_total popLe_trans
    (db.products.filter (fun p => p.is_available && !(exclude_ids.contains p.id)))
  have hpair := hsorted.imp (fun hab => (popLe_iff _ _).mp hab)
  refine ⟨?_, ?_, ?_, ?_⟩
  · intro x hx
    have h1 : x ∈ isort popLe (db.products.filter (fun p =>
        p.is_available && !(exclude_ids.contains p.id))) :=
      (List.take_sublist _ _).subset hx
    have h2 := (mem_isort popLe).mp h1
    rcases List.mem_filter.mp h2 with ⟨_, hpred⟩
    simp only [Bool.and_eq_true, Bool.not_eq_true'] at hpred
    exact hpred
  · exact List.length_take_le _ _
  · exact hpair.sublist (List.take_sublist _ _) |>.imp id
  · exact ⟨_, isort_perm popLe _, hpair, rfl⟩

/-! ## Reduction lemmas for search -/

/-- The log side of searchCompute is the log_search update with the
matched-candidate count. -/
theorem searchCompute_log (env : Env) (db : DB) (log : List PopularEntry) (q : Str)
    (cslug : Option Str) (limit : Nat) :
    (searchCompute env db log q cslug limit).2 =
      log_search log q ((searchCandidates db q cslug).length) := rfl

/-- The total reported by searchCompute is the matched-candidate count. -/
theorem searchCompute_total (env : Env) (db : DB) (log : List PopularEntry) (q : Str)
    (cslug : Option Str) (limit : Nat) :
    (searchCompute env db log q cslug limit).1.total =
      (searchCandidates db q cslug).length := rfl

/-- On a non-empty query and a cache miss, search computes, caches and
logs. -/
theorem search_eq_compute (env : Env) (db : DB) (st : SearchState) (query : Str)
    (cslug : Option Str) (limit : Nat)
    (hq : ¬lcase (pyStrip query) = [])
    (hmiss : st.cache.find? (fun e =>
      decide (e.1 = cacheKey (lcase (pyStrip query)) cslug)) = none) :
    search env db st query cslug limit =
      ((searchCompute env db st.log (lcase (pyStrip query)) cslug limit).1,
       ⟨(cacheKey (lcase (pyStrip query)) cslug,
          (searchCompute env db st.log (lcase (pyStrip query)) cslug limit).1) ::
          st.cache,
        (searchCompute env db st.log (lcase (pyStrip query)) cslug limit).2⟩) := by
  simp [search, hq, hmiss]

/-- Every product of a computed (non-cached) search result is available
and satisfies the applied category restriction. -/
theorem mem_searchCompute_products (env : Env) (db : DB) (log : List PopularEntry)
    (q : Str) (cslug : Option Str) (limit : Nat) (p : Product)
    (hp : p ∈ (searchCompute env db log q cslug limit).1.products) :
    p.is_available = true ∧ categoryFilterOk db cslug p = true := by
  have h1 : p ∈ searchCandidates db q cslug := by
    have h0 : (searchCompute env db log q cslug limit).1.products =
        (isort (searchLe defaultWeights q) (searchCandidates db q cslug)).take
          limit := rfl
    rw [h0] at hp
    exact (mem_isort _).mp ((List.take_sublist _ _).subset hp)
  simp only [searchCandidates] at h1
  cases hc : cslug.bind (resolveCategory db) with
  | none =>
    rw [hc] at h1
    rcases List.mem_filter.mp h1 with ⟨h2, _⟩
    rcases List.mem_filter.mp h2 with ⟨_, h3⟩
    refine ⟨h3, ?_⟩
    simp [categoryFilterOk, hc]
  | some c =>
    rw [hc] at h1
    rcases List.mem_filter.mp h1 with ⟨h2, _⟩
    rcases List.mem_filter.mp h2 with ⟨h4, h5⟩
    rcases List.mem_filter.mp h4 with ⟨_, h6⟩
    refine ⟨h6, ?_⟩
    simp only [categoryFilterOk, hc]
    exact h5

/-! ## Claim C1 -/

/-- Claim C1 counterexample: with one available product in the category
with slug "food" and no active category of slug "drinks", a search that
supplies category_slug "drinks" still returns the product, whose
category does not match the supplied filter: an unresolvable slug is
silently dropped. -/
theorem C1_counterexample :
    (search env0 db1 st0 "milk".data (some "drinks".data) 50).1.products =
      [prod1] ∧
    (∀ c ∈ db1.categories, c.id = prod1.categoryId → ¬c.slug = "drinks".data) ∧
    resolveCategory db1 "drinks".data = none := by
  decide

/-- Claim C1 (amended): on a search that is not a cache hit, every
returned item is available, and when the supplied category_slug resolves
to an active category the item belongs to that category; a slug that
resolves to no active category imposes no restriction. -/
theorem C1_search_invariant (env : Env) (db : DB) (st : SearchState) (query : Str)
    (cslug : Option Str) (limit : Nat)
    (hmiss : st.cache.find? (fun e =>
      decide (e.1 = cacheKey (lcase (pyStrip query)) cslug)) = none) :
    ∀ p, p ∈ (search env db st query cslug limit).1.products →
      p.is_available = true ∧ categoryFilterOk db cslug p = true := by
  intro p hp
  by_cases hq : lcase (pyStrip query) = []
  · rw [show search env db st query cslug limit = (emptyResult, st) by
      simp [search, hq]] at hp
    simp [emptyResult] at hp
  · rw [search_eq_compute env db st query cslug limit hq hmiss] at hp
    exact mem_searchCompute_products env db st.log _ cslug limit p hp

/-- Claim C1 witness: the invariant evaluated on a concrete search with a
resolving category filter. -/
theorem C1_search_invariant_witness :
    prod1.is_available = true ∧
    categoryFilterOk db1 (some "food".data) prod1 = true :=
  C1_search_invariant env0 db1 st0 "milk".data (some "food".data) 50 (by decide)
    prod1 (by decide)

/-! ## Claim C5 -/

/-- Claim C5 counterexample: for the one-character query "a", two
identical searches from the empty state return identical results, but
the popular-query log is never written (incremented zero times, not
once), because log_search ignores queries shorter than two characters. -/
theorem C5_counterexample :
    c5SecondCall.1 = c5FirstCall.1 ∧
    searchCountOf c5SecondCall.2.log "a".data = 0 ∧
    c5SecondCall.2.log = [] := by
  decide

/-- Claim C5 (amended): two identical search calls within the TTL, the
first of which is not already a cache hit, return identical results, the
second being a cache hit that changes no state; the popular-query log is
incremented exactly once, provided the normalized query reaches the
two-character minimum that log_search enforces. -/
theorem C5_idempotence (env : Env) (db : DB) (st : SearchState) (query : Str)
    (cslug : Option Str) (limit : Nat)
    (hmiss : st.cache.find? (fun e =>
      decide (e.1 = cacheKey (lcase (pyStrip query)) cslug)) = none)
    (hlen : 2 ≤ (logKey (lcase (pyStrip query))).length) :
    (search env db (search env db st query cslug limit).2 query cslug limit).1 =
      (search env db st query cslug limit).1 ∧
    (search env db (search env db st query cslug limit).2 query cslug limit).2 =
      (search env db st query cslug limit).2 ∧
    searchCountOf (search env db st query cslug limit).2.log
        (logKey (lcase (pyStrip query))) =
      searchCountOf st.log (logKey (lcase (pyStrip query))) + 1 := by
  have hq : ¬lcase (pyStrip query) = [] := by
    intro h
    rw [h] at hlen
    exact absurd hlen (by decide)
  rw [search_eq_compute env db st query cslug limit hq hmiss]
  have hfind : ((cacheKey (lcase (pyStrip query)) cslug,
      (searchCompute env db st.log (lcase (pyStrip query)) cslug limit).1) ::
      st.cache).find? (fun x =>
        decide (x.1 = cacheKey (lcase (pyStrip query)) cslug)) =
      some (cacheKey (lcase (pyStrip query)) cslug,
        (searchCompute env db st.log (lcase (pyStrip query)) cslug limit).1) :=
    List.find?_cons_of_pos _ (by simp)
  refine ⟨?_, ?_, ?_⟩
  · simp [search, hq, hfind]
  · simp [search, hq, hfind]
  · simp only [searchCompute_log]
    unfold searchCountOf
    rw [log_search_self st.log (lcase (pyStrip query)) _ hlen]
    rfl

/-- Claim C5 witness: the idempotence conclusion on a concrete query,
catalog and empty starting state. -/
theorem C5_idempotence_witness :
    (search env0 db1 (search env0 db1 st0 "milk".data none 50).2 "milk".data
        none 50).1 = (search env0 db1 st0 "milk".data none 50).1 ∧
    (search env0 db1 (search env0 db1 st0 "milk".data none 50).2 "milk".data
        none 50).2 = (search env0 db1 st0 "milk".data none 50).2 ∧
    searchCountOf (search env0 db1 st0 "milk".data none 50).2.log
        (logKey (lcase (pyStrip "milk".data))) =
      searchCountOf st0.log (logKey (lcase (pyStrip "milk".data))) + 1 :=
  C5_idempotence env0 db1 st0 "milk".data none 50 (by decide) (by decide)

/-! ## Claim C8 -/

/-- Claim C8 counterexample: the query "b" is non-empty and not a cache
hit, yet the search writes nothing to the popular-query log, because the
normalized query is shorter than two characters. -/
theorem C8_counterexample :
    ¬pyStrip "b".data = [] ∧ st0.cache = [] ∧
    (search env0 db1 st0 "b".data none 50).2.log = st0.log := by
  decide

/-- Claim C8 (amended): on every non-cache-hit search whose normalized
query reaches the two-character minimum, exactly one popular-query-log
row changes: the row of the normalized query ends with its search_count
incremented (so a fresh row carries search_count 1) and its
results_count overwritten with the observed total, and every other row
is untouched. -/
theorem C8_log_write (env : Env) (db : DB) (st : SearchState) (query : Str)
    (cslug : Option Str) (limit : Nat)
    (hmiss : st.cache.find? (fun e =>
      decide (e.1 = cacheKey (lcase (pyStrip query)) cslug)) = none)
    (hlen : 2 ≤ (logKey (lcase (pyStrip query))).length) :
    (search env db st query cslug limit).2.log.find?
        (fun e => decide (e.query = logKey (lcase (pyStrip query)))) =
      some ⟨logKey (lcase (pyStrip query)),
        searchCountOf st.log (logKey (lcase (pyStrip query))) + 1,
        (search env db st query cslug limit).1.total⟩ ∧
    ∀ k, ¬k = logKey (lcase (pyStrip query)) →
      (search env db st query cslug limit).2.log.find?
          (fun e => decide (e.query = k)) =
        st.log.find? (fun e => decide (e.query = k)) := by
  have hq : ¬lcase (pyStrip query) = [] := by
    intro h
    rw [h] at hlen
    exact absurd hlen (by decide)
  rw [search_eq_compute env db st query cslug limit hq hmiss]
  constructor
  · simp only [searchCompute_log, searchCompute_total]
    exact log_search_self st.log (lcase (pyStrip query)) _ hlen
  · intro k hk
    simp only [searchCompute_log]
    exact log_search_other st.log (lcase (pyStrip query)) _ k hk

/-- Claim C8 witness: the log row produced by a concrete first-time
search. -/
theorem C8_log_write_witness :
    (search env0 db1 st0 "milk".data none 50).2.log.find?
        (fun e => decide (e.query = logKey (lcase (pyStrip "milk".data)))) =
      some ⟨logKey (lcase (pyStrip "milk".data)),
        searchCountOf st0.log (logKey (lcase (pyStrip "milk".data))) + 1,
        (search env0 db1 st0 "milk".data none 50).1.total⟩ :=
  (C8_log_write env0 db1 st0 "milk".data none 50 (by decide) (by decide)).1

/-! ## Claim C7 -/

/-- What membership in tier 1 of similar products guarantees. -/
theorem mem_simTier1 (db : DB) (product : Product) (limit : Nat) (x : Product)
    (hx : x ∈ simTier1 db product limit) :
    x ∈ db.products ∧ x.is_available = true ∧
    x.categoryId = product.categoryId ∧ priceBand product x = true ∧
    ¬x.id = product.id := by
  have h1 := (mem_isort simLe1).mp ((List.take_sublist _ _).subset hx)
  rcases List.mem_filter.mp h1 with ⟨hmem, hpred⟩
  simp only [Bool.and_eq_true, decide_eq_true_eq] at hpred
  exact ⟨hmem, hpred.1.1.1, hpred.1.1.2, hpred.1.2, hpred.2⟩

/-- What membership in tier 2 of similar products guarantees. -/
theorem mem_simTier2 (db : DB) (product : Product) (limit : Nat)
    (sel1 : List Product) (x : Product) (hx : x ∈ simTier2 db product limit sel1) :
    x ∈ db.products ∧ x.is_available = true ∧
    x.categoryId = product.categoryId ∧ ¬x.id = product.id ∧
    ∀ s ∈ sel1, ¬s.id = x.id := by
  unfold simTier2 at hx
  split at hx
  · have h1 := (mem_isort simLe2).mp ((List.take_sublist _ _).subset hx)
    rcases List.mem_filter.mp h1 with ⟨hmem, hpred⟩
    simp only [Bool.and_eq_true, Bool.not_eq_true', Bool.or_eq_false_iff,
      decide_eq_true_eq, decide_eq_false_iff_not, List.any_eq_false] at hpred
    exact ⟨hmem, hpred.1.1, hpred.1.2, hpred.2.1, hpred.2.2⟩
  · exact absurd hx (List.not_mem_nil x)

/-- What membership in tier 3 of similar products guarantees. -/
theorem mem_simTier3 (db : DB) (product : Product) (limit : Nat)
    (sel2 : List Product) (x : Product) (hx : x ∈ simTier3 db product limit sel2) :
    x ∈ db.products ∧ x.is_available = true ∧ x.is_featured = true ∧
    ¬x.id = product.id ∧ ∀ s ∈ sel2, ¬s.id = x.id := by
  unfold simTier3 at hx
  split at hx
  · have h1 := (mem_isort simLe3).mp ((List.take_sublist _ _).subset hx)
    rcases List.mem_filter.mp h1 with ⟨hmem, hpred⟩
    simp only [Bool.and_eq_true, Bool.not_eq_true', Bool.or_eq_false_iff,
      decide_eq_true_eq, decide_eq_false_iff_not, List.any_eq_false] at hpred
    exact ⟨hmem, hpred.1.1, hpred.1.2, hpred.2.1, hpred.2.2⟩
  · exact absurd hx (List.not_mem_nil x)

/-- A filled tier 1 suppresses tier 2. -/
theorem simTier2_eq_nil (db : DB) (product : Product) (limit : Nat)
    (sel1 : List Product) (h : ¬sel1.length < limit) :
    simTier2 db product limit sel1 = [] := by
  unfold simTier2
  rw [if_neg h]

/-- A filled selection suppresses tier 3. -/
theorem simTier3_eq_nil (db : DB) (product : Product) (limit : Nat)
    (sel2 : List Product) (h : ¬sel2.length < limit) :
    simTier3 db product limit sel2 = [] := by
  unfold simTier3
  rw [if_neg h]

/-- Distinct catalog ids stay distinct through filter, sort and
truncation. -/
theorem nodup_ids_take_isort (le : Product → Product → Bool)
    (pred : Product → Bool) (l : List Product) (n : Nat)
    (h : (l.map (fun p => p.id)).Nodup) :
    (((isort le (l.filter pred)).take n).map (fun p => p.id)).Nodup := by
  have h1 : ((l.filter pred).map (fun p => p.id)).Nodup :=
    ((List.filter_sublist l).map (fun (p : Product) => p.id)).nodup h
  have h2 : ((isort le (l.filter pred)).map (fun p => p.id)).Nodup :=
    (((isort_perm le (l.filter pred)).map (fun (p : Product) => p.id)).nodup_iff).mpr h1
  exact ((List.take_sublist n _).map (fun (p : Product) => p.id)).nodup h2

/-- Claim C7: get_similar_products never includes the reference product,
returns at most limit items, all available and pairwise distinct, and is
the concatenation of the three fallback tiers in order: same category
and price band first, then same category, then featured items, the
later tiers running only while the list is underfilled. The price band
is the exact plus-or-minus thirty percent interval; the code computes
its bounds through binary floating point, which the model idealizes as
exact rational arithmetic. -/
theorem C7_similar_products (db : DB) (product : Product) (limit : Nat)
    (hnd : (db.products.map (fun p => p.id)).Nodup) :
    (∀ x ∈ get_similar_products db product limit,
        ¬x.id = product.id ∧ x.is_available = true) ∧
    (get_similar_products db product limit).length ≤ limit ∧
    ((get_similar_products db product limit).map (fun p => p.id)).Nodup ∧
    ∃ t1 t2 t3, get_similar_products db product limit = t1 ++ t2 ++ t3 ∧
      (∀ x ∈ t1, x.categoryId = product.categoryId ∧ priceBand product x = true) ∧
      (∀ x ∈ t2, x.categoryId = product.categoryId) ∧
      (∀ x ∈ t3, x.is_featured = true) ∧
      (¬t2 = [] → t1.length < limit) ∧
      (¬t3 = [] → t1.length + t2.length < limit) := by
  have hr : get_similar_products db product limit =
      (simTier1 db product limit ++
        simTier2 db product limit (simTier1 db product limit)) ++
        simTier3 db product limit
          (simTier1 db product limit ++
            simTier2 db product limit (simTier1 db product limit)) := rfl
  refine ⟨?_, ?_, ?_, ?_⟩
  · intro x hx
    rw [hr] at hx
    rcases List.mem_append.mp hx with hx2 | hx3
    · rcases List.mem_append.mp hx2 with h1 | h2
      · rcases mem_simTier1 db product limit x h1 with ⟨_, ha, _, _, hi⟩
        exact ⟨hi, ha⟩
      · rcases mem_simTier2 db product limit _ x h2 with ⟨_, ha, _, hi, _⟩
        exact ⟨hi, ha⟩
    · rcases mem_simTier3 db product limit _ x hx3 with ⟨_, ha, _, hi, _⟩
      exact ⟨hi, ha⟩
  · have len1 : (simTier1 db product limit).length ≤ limit :=
      List.length_take_le _ _
    have len2 : (simTier2 db product limit (simTier1 db product limit)).length ≤
        limit - (simTier1 db product limit).length := by
      unfold simTier2
      split
      · exact List.length_take_le _ _
      · simp
    have len3 : (simTier3 db product limit
        (simTier1 db product limit ++
          simTier2 db product limit (simTier1 db product limit))).length ≤
        limit - (simTier1 db product limit ++
          simTier2 db product limit (simTier1 db product limit)).length := by
      unfold simTier3
      split
      · exact List.length_take_le _ _
      · simp
    rw [hr, List.length_append, List.length_append]
    rw [List.length_append] at len3
    omega
  · rw [hr]
    rw [List.map_append, List.map_append]
    have hnd1 : ((simTier1 db product limit).map (fun p => p.id)).Nodup :=
      nodup_ids_take_isort simLe1 _ db.products limit hnd
    have hnd2 : ((simTier2 db product limit
        (simTier1 db product limit)).map (fun p => p.id)).Nodup := by
      unfold simTier2
      split
      · exact nodup_ids_take_isort simLe2 _ db.products _ hnd
      · simp
    have hnd3 : ((simTier3 db product limit
        (simTier1 db product limit ++
          simTier2 db product limit (simTier1 db product limit))).map
        (fun p => p.id)).Nodup := by
      unfold simTier3
      split
      · exact nodup_ids_take_isort simLe3 _ db.products _ hnd
      · simp
    have hdisj12 : List.Disjoint
        ((simTier1 db product limit).map (fun p => p.id))
        ((simTier2 db product limit (simTier1 db product limit)).map
          (fun p => p.id)) := by
      intro a ha1 ha2
      rcases List.mem_map.mp ha2 with ⟨x, hx, rfl⟩
      rcases List.mem_map.mp ha1 with ⟨s, hs, hsx⟩
      rcases mem_simTier2 db product limit _ x hx with ⟨_, _, _, _, hall⟩
      exact hall s hs hsx
    have hdisj23 : List.Disjoint
        ((simTier1 db product limit).map (fun p => p.id) ++
          (simTier2 db product limit (simTier1 db product limit)).map
            (fun p => p.id))
        ((simTier3 db product limit
          (simTier1 db product limit ++
            simTier2 db product limit (simTier1 db product limit))).map
          (fun p => p.id)) := by
      intro a ha1 ha2
      rcases List.mem_map.mp ha2 with ⟨x, hx, rfl⟩
      rcases mem_simTier3 db product limit _ x hx with ⟨_, _, _, _, hall⟩
      rw [← List.map_append] at ha1
      rcases List.mem_map.mp ha1 with ⟨s, hs, hsx⟩
      exact hall s hs hsx
    exact List.Nodup.append (List.Nodup.append hnd1 hnd2 hdisj12) hnd3 hdisj23
  · refine ⟨simTier1 db product limit,
      simTier2 db product limit (simTier1 db product limit),
      simTier3 db product limit
        (simTier1 db product limit ++
          simTier2 db product limit (simTier1 db product limit)),
      by rw [hr, List.append_assoc], ?_, ?_, ?_, ?_, ?_⟩
    · intro x hx
      rcases mem_simTier1 db product limit x hx with ⟨_, _, hc, hb, _⟩
      exact ⟨hc, hb⟩
    · intro x hx
      rcases mem_simTier2 db product limit _ x hx with ⟨_, _, hc, _, _⟩
      exact hc
    · intro x hx
      rcases mem_simTier3 db product limit _ x hx with ⟨_, _, hf, _, _⟩
      exact hf
    · intro h2
      by_contra hlt
      exact h2 (simTier2_eq_nil db product limit _ hlt)
    · intro h3
      by_contra hlt
      refine h3 (simTier3_eq_nil db product limit _ ?_)
      rw [List.length_append]
      exact hlt

/-- Claim C7 witness: the length bound evaluated on a concrete catalog
and reference product. -/
theorem C7_similar_products_witness :
    (get_similar_products db1 prodFuzzy 2).length ≤ 2 :=
  (C7_similar_products db1 prodFuzzy 2 (by decide)).2.1

end AbakMarket
